import Mathlib

/-!
# Verification of the `ShutdownManager` graceful-shutdown coordinator

Shallow embedding of `src/mod.ts` (the `ShutdownManager` class).  The
embedding has two layers:

* a pure model of the body of `#processSignal` (the shutdown run): hooks are
  described by their settlement behaviour, each hook is raced against a fresh
  per-hook timer and the shared global timer, and the run accumulates the
  `withError` / `forceExit` flags, the log lines, and the final
  `process.exit` status code;
* an event-step model of the whole coordinator (`Manager` / `handleEvent`):
  signal deliveries, uncaught-error deliveries, `addHook`, `disconnect`, and
  the resumption of the suspended shutdown loop at its single suspension
  point (the `await Promise.race`) are explicit events, so interleavings of
  triggers and registry mutations with an in-flight run can be stated.

Timers are modelled by their expiry instants (milliseconds as `Nat`).  A
race is decided by the earliest settlement; at ties the global timer wins
over everything (that promise/timer was created first, at shutdown start)
and a hook's own settlement wins over the per-hook timer (the handler is
invoked before the per-hook timer is created).  All the claims below only
exercise strict orderings, so the tie-break never decides a claim.
-/

/-- Model of the JavaScript values that can appear as a rejection reason or
thrown error: enough structure to distinguish `typeof v === "object"`
(which is true for `null` and any object, including `Error` instances)
from `instanceof Error` (true only for `Error` instances). -/
inductive JSValue
  | vNull
  | vUndefined
  | vBool (b : Bool)
  | vNum (n : Int)
  | vStr (s : String)
  | vErrorObj (msg : String)
  | vPlainObj (tag : String)
deriving DecidableEq, Repr

/-- `typeof v === "object"` for our value model: `null`, plain objects and
`Error` instances are `"object"`; booleans, numbers, strings and
`undefined` are not. -/
def typeofIsObject : JSValue → Bool
  | .vNull => true
  | .vErrorObj _ => true
  | .vPlainObj _ => true
  | _ => false

/-- `v instanceof Error` for our value model. -/
def isErrorInstance : JSValue → Bool
  | .vErrorObj _ => true
  | _ => false

/-- Log levels of the supplied structured logger. -/
inductive LogLevel
  | info
  | warn
  | error
deriving DecidableEq, Repr

/-- The context object of a two-argument log call: a raw value passed
through unchanged, a `\x7b error: v \x7d` wrapper, or a `\x7b signal \x7d`
wrapper. -/
inductive LogCtx
  | raw (v : JSValue)
  | wrapped (v : JSValue)
  | signalCtx (s : String)
deriving DecidableEq, Repr

/-- One call to the logger: level, optional context object, message. -/
structure LogLine where
  level : LogLevel
  ctx : Option LogCtx
  msg : String
deriving DecidableEq, Repr

/-- Context logged by `#processErrors`:
`typeof error === "object" ? error : { error }`. -/
def processErrorsCtx (e : JSValue) : LogCtx :=
  if typeofIsObject e then .raw e else .wrapped e

/-- Context logged by the `catch` branch of the hook loop:
`error instanceof Error ? error : { error }`. -/
def hookErrCtx (e : JSValue) : LogCtx :=
  if isErrorInstance e then .raw e else .wrapped e

/-- `Registered "<name>" hook` (logged by `addHook`). -/
def registeredLine (name : String) : LogLine :=
  ⟨.info, none, s!"Registered \"{name}\" hook"⟩

/-- The re-entrancy warning of `#processSignal`. -/
def ignoringLine (sig : String) : LogLine :=
  ⟨.warn, some (.signalCtx sig),
    "Ignoring process exit signal has the app is shutting down."⟩

/-- `Processing exit signal` with the `\x7b signal \x7d` context. -/
def processingSignalLine (sig : String) : LogLine :=
  ⟨.info, some (.signalCtx sig), "Processing exit signal"⟩

/-- `Processing "<name>" hook`. -/
def processingHookLine (name : String) : LogLine :=
  ⟨.info, none, s!"Processing \"{name}\" hook"⟩

/-- `Timed out "<name>" hook`. -/
def timedOutLine (name : String) : LogLine :=
  ⟨.info, none, s!"Timed out \"{name}\" hook"⟩

/-- `Successful "<name>" hook`. -/
def successfulLine (name : String) : LogLine :=
  ⟨.info, none, s!"Successful \"{name}\" hook"⟩

/-- `Unsuccessful "<name>" hook` with the rejection reason as context. -/
def unsuccessfulLine (name : String) (e : JSValue) : LogLine :=
  ⟨.error, some (hookErrCtx e), s!"Unsuccessful \"{name}\" hook"⟩

/-- `Exit signal process completed` with the `\x7b signal \x7d` context. -/
def completedLine (sig : String) : LogLine :=
  ⟨.info, some (.signalCtx sig), "Exit signal process completed"⟩

/-- The `withError` warning after the loop. -/
def gracefulWarnLine : LogLine :=
  ⟨.warn, none, "Looks like some handlers where not able to be processed gracefully"⟩

/-- The `forceExit` warning after the loop. -/
def globalWarnLine : LogLine :=
  ⟨.warn, none, "Looks like the global timeout was reached"⟩

/-- `Uncaught/Unhandled` error line of `#processErrors`. -/
def uncaughtLine (e : JSValue) : LogLine :=
  ⟨.error, some (processErrorsCtx e), "Uncaught/Unhandled"⟩

/-- `Exiting with status code of <code>` (logged by the `exit` listener). -/
def exitingLine (code : Nat) : LogLine :=
  ⟨.info, none, s!"Exiting with status code of {code}"⟩

/-- Settlement behaviour of a hook's handler: settles successfully after
`t` ms, rejects after `t` ms with reason `e`, or never settles. -/
inductive HookBehavior
  | ok (t : Nat)
  | err (t : Nat) (e : JSValue)
  | hang
deriving DecidableEq, Repr

/-- A registered hook: its name and (the behaviour of) its handler. -/
structure Hook where
  name : String
  behavior : HookBehavior
deriving DecidableEq, Repr

/-- Which participant won the three-way `Promise.race`. -/
inductive RaceOutcome
  | ok
  | err (e : JSValue)
  | timeout
  | globalTimeout
deriving DecidableEq, Repr

/-- The race `Promise.race([handler(), timers.setTimeout(p, "timeout"),
globalTimeout])` for a hook started `s` ms after shutdown began, with
per-hook timeout `p` and global timer firing at instant `g`.  Returns the
winner and the instant at which the race settles.  The global timer wins
ties (it was created first); the hook wins ties against the per-hook timer. -/
def raceHook (s p g : Nat) (b : HookBehavior) : RaceOutcome × Nat :=
  match b with
  | .hang =>
      if g ≤ s + p then (.globalTimeout, max s g) else (.timeout, s + p)
  | .ok t =>
      if g ≤ s + min t p then (.globalTimeout, max s g)
      else if t ≤ p then (.ok, s + t)
      else (.timeout, s + p)
  | .err t e =>
      if g ≤ s + min t p then (.globalTimeout, max s g)
      else if t ≤ p then (.err e, s + t)
      else (.timeout, s + p)

/-- The loop body's reaction to a race outcome for hook `name`, given the
current `withError` / `forceExit` flags: the new flags and the log lines
appended after the `Processing` line (source lines 138–153). -/
def raceUpdate (withError forceExit : Bool) (name : String) :
    RaceOutcome → Bool × Bool × List LogLine
  | .timeout => (true, forceExit, [timedOutLine name])
  | .globalTimeout => (withError, true, [])
  | .ok => (withError, forceExit, [successfulLine name])
  | .err e => (true, forceExit, [unsuccessfulLine name e])

/-- State threaded through the hook loop of `#processSignal`: elapsed time
since shutdown began, the two outcome flags, the names of the handlers
invoked so far (each loop iteration calls `handler()` exactly once, as the
first argument of `Promise.race`), and the log so far. -/
structure RunState where
  time : Nat
  withError : Bool
  forceExit : Bool
  invoked : List String
  log : List LogLine
deriving DecidableEq, Repr

/-- One iteration of the hook loop: log `Processing`, invoke the handler,
race it against the per-hook timer and the global timer, then update flags
and log according to the winner. -/
def processHook (p g : Nat) (st : RunState) (h : Hook) : RunState :=
  let r := raceHook st.time p g h.behavior
  let u := raceUpdate st.withError st.forceExit h.name r.1
  { time := r.2
    withError := u.1
    forceExit := u.2.1
    invoked := st.invoked ++ [h.name]
    log := st.log ++ processingHookLine h.name :: u.2.2 }

/-- Run-state at the top of `#processSignal`, just after the guard: the
`Processing exit signal` line is logged, both flags are false, the global
timer starts now (instant 0). -/
def initRunState (sig : String) : RunState :=
  { time := 0
    withError := false
    forceExit := false
    invoked := []
    log := [processingSignalLine sig] }

/-- The complete shutdown run of `#processSignal` over a fixed hook list:
the final run-state (with the post-loop log lines) and the status code
passed to `process.exit`. -/
def runShutdown (p g : Nat) (sig : String) (hooks : List Hook) :
    RunState × Nat :=
  let st := hooks.foldl (processHook p g) (initRunState sig)
  let log := st.log ++ [completedLine sig]
  let log := if st.withError then log ++ [gracefulWarnLine] else log
  let log := if st.forceExit then log ++ [globalWarnLine] else log
  ({ st with log := log }, if st.withError || st.forceExit then 1 else 0)

/-- Default per-hook timeout (ms). -/
def defaultPerHookTimeout : Nat := 5000

/-- Default global shutdown timeout (ms). -/
def defaultShutdownTimeout : Nat := 10000

/-- Default signal set of the constructor. -/
def defaultSignals : List String :=
  ["SIGINT", "SIGTERM", "SIGABRT", "SIGUSR2"]

/-- Where the asynchronous `#processSignal` currently stands: not yet
triggered (`idle`); suspended at the `await Promise.race` of hook number
`idx` of the live registry, with the trigger signal, the two flags and the
elapsed time as local state (`running`); or finished, `process.exit`
called (`exited`). -/
inductive Phase
  | idle
  | running (sig : String) (idx : Nat) (withError forceExit : Bool) (time : Nat)
  | exited
deriving DecidableEq, Repr

/-- The observable state of a `ShutdownManager` instance together with its
process-level bindings: the live hook registry (`#handlers`), the
`#shuttingDown` latch, the `AbortController`'s signalled flag, whether the
process listeners installed by `#bind(true)` are still attached
(`connected`), the phase of the (at most one) shutdown run, the log calls
made so far, the names of the hook handlers invoked so far, and the
arguments of the `process.exit` calls made so far. -/
structure Manager where
  handlers : List Hook
  signals : List String
  shuttingDown : Bool
  aborted : Bool
  connected : Bool
  phase : Phase
  log : List LogLine
  invoked : List String
  exitCalls : List Nat
deriving DecidableEq, Repr

/-- A freshly constructed manager with the given signal set: empty
registry, latch down, abort signal unsignalled, listeners attached. -/
def mkManager (sigs : List String) : Manager :=
  { handlers := []
    signals := sigs
    shuttingDown := false
    aborted := false
    connected := true
    phase := .idle
    log := []
    invoked := []
    exitCalls := [] }

/-- A freshly constructed manager with the default signal set. -/
def initManager : Manager := mkManager defaultSignals

/-- The `hooksSize` accessor. -/
def Manager.hooksSize (m : Manager) : Nat := m.handlers.length

/-- The `abortSignal` accessor, reduced to the one observable bit of the
returned (fixed) `AbortSignal` handle: whether it is aborted. -/
def Manager.abortSignal (m : Manager) : Bool := m.aborted

/-- End of the shutdown run: log `Exit signal process completed`, the two
conditional warnings, call `process.exit` with the derived code, which
fires the `exit` event (the `#onExit` listener logs the status code iff it
is still attached). -/
def finishRun (sig : String) (withError forceExit : Bool) (m : Manager) :
    Manager :=
  let code := if withError || forceExit then 1 else 0
  let log := m.log ++ [completedLine sig]
  let log := if withError then log ++ [gracefulWarnLine] else log
  let log := if forceExit then log ++ [globalWarnLine] else log
  let log := if m.connected then log ++ [exitingLine code] else log
  { m with phase := .exited, log := log, exitCalls := m.exitCalls ++ [code] }

/-- Advance the loop to iteration `idx`: the `for … of` iterator re-reads
the live registry's length, so if a hook exists at `idx` its `Processing`
line is logged, its handler invoked, and the run suspends awaiting the
race; otherwise the loop is over and the run finishes synchronously. -/
def enterLoop (sig : String) (idx : Nat) (withError forceExit : Bool)
    (time : Nat) (m : Manager) : Manager :=
  match m.handlers[idx]? with
  | some h =>
      { m with phase := .running sig idx withError forceExit time
               log := m.log ++ [processingHookLine h.name]
               invoked := m.invoked ++ [h.name] }
  | none => finishRun sig withError forceExit m

/-- The body of `#processSignal` up to its first suspension point: the
re-entrancy guard, then `Processing exit signal`, latch up, abort the
controller, start the global timer (instant 0) and enter the loop. -/
def processSignalStart (sig : String) (m : Manager) : Manager :=
  if m.shuttingDown then
    { m with log := m.log ++ [ignoringLine sig] }
  else
    enterLoop sig 0 false false 0
      { m with log := m.log ++ [processingSignalLine sig]
               shuttingDown := true
               aborted := true }

/-- External events the coordinator reacts to: delivery of a configured OS
signal, delivery of an uncaught exception / unhandled rejection, a call to
`addHook`, a call to `disconnect`, and the settlement of the race the
in-flight run is awaiting (the loop's one suspension point). -/
inductive Event
  | sigEvent (s : String)
  | errorEvent (e : JSValue)
  | addHookEvent (h : Hook)
  | disconnectEvent
  | stepEvent
deriving DecidableEq, Repr

/-- One event step of the coordinator. -/
def handleEvent (p g : Nat) (m : Manager) : Event → Manager
  | .sigEvent s =>
      if m.connected ∧ s ∈ m.signals then processSignalStart s m else m
  | .errorEvent e =>
      if m.connected then
        processSignalStart "SIGUSR2"
          { m with log := m.log ++ [uncaughtLine e] }
      else m
  | .addHookEvent h =>
      { m with log := m.log ++ [registeredLine h.name]
               handlers := m.handlers ++ [h] }
  | .disconnectEvent => { m with connected := false }
  | .stepEvent =>
      match m.phase with
      | .running sig idx withError forceExit time =>
          match m.handlers[idx]? with
          | some h =>
              let r := raceHook time p g h.behavior
              let u := raceUpdate withError forceExit h.name r.1
              enterLoop sig (idx + 1) u.1 u.2.1 r.2
                { m with log := m.log ++ u.2.2 }
          | none => m
      | _ => m

/-- Run a sequence of events from a starting manager. -/
def runEvents (p g : Nat) (m : Manager) (evs : List Event) : Manager :=
  evs.foldl (handleEvent p g) m

/-- The time a hook contributes to a run in which it settles successfully. -/
def okTime : HookBehavior → Nat
  | .ok t => t
  | _ => 0

/-- Total settle time of a list of hooks that all settle successfully. -/
def sumOkTimes (hooks : List Hook) : Nat :=
  (hooks.map (fun h => okTime h.behavior)).sum

/-- The log lines one loop iteration appends: the `Processing` line
followed by the outcome line (if any). -/
def hookLogBlock (p g : Nat) (st : RunState) (h : Hook) : List LogLine :=
  processingHookLine h.name ::
    (raceUpdate st.withError st.forceExit h.name
      (raceHook st.time p g h.behavior).1).2.2

/-- The log produced by the hook loop from state `st`, as the ordered
concatenation of the per-hook blocks. -/
def loopLog (p g : Nat) : RunState → List Hook → List LogLine
  | _, [] => []
  | st, h :: hs => hookLogBlock p g st h ++ loopLog p g (processHook p g st h) hs

theorem foldl_invoked (p g : Nat) (hooks : List Hook) : ∀ st : RunState,
    (List.foldl (processHook p g) st hooks).invoked =
      st.invoked ++ hooks.map Hook.name := by
  induction hooks with
  | nil => intro st; simp
  | cons h hs ih =>
      intro st
      rw [List.foldl_cons, ih]
      simp [processHook]

theorem foldl_log (p g : Nat) (hooks : List Hook) : ∀ st : RunState,
    (List.foldl (processHook p g) st hooks).log =
      st.log ++ loopLog p g st hooks := by
  induction hooks with
  | nil => intro st; simp [loopLog]
  | cons h hs ih =>
      intro st
      rw [List.foldl_cons, ih]
      simp [processHook, loopLog, hookLogBlock]

theorem allOk_foldl (p g : Nat) (hooks : List Hook) : ∀ st : RunState,
    (∀ h ∈ hooks, ∃ t, h.behavior = HookBehavior.ok t ∧ t ≤ p) →
    st.time + sumOkTimes hooks < g →
    ((List.foldl (processHook p g) st hooks).withError = st.withError ∧
     (List.foldl (processHook p g) st hooks).forceExit = st.forceExit ∧
     (List.foldl (processHook p g) st hooks).time = st.time + sumOkTimes hooks) := by
  induction hooks with
  | nil => intro st _ _; simp [sumOkTimes]
  | cons h hs ih =>
      intro st hall hsum
      obtain ⟨t, hbt, htp⟩ := hall h (List.mem_cons_self h hs)
      have hsums : sumOkTimes (h :: hs) = t + sumOkTimes hs := by
        simp [sumOkTimes, hbt, okTime]
      rw [hsums] at hsum
      have hng : ¬ g ≤ st.time + t := by omega
      have hstep : processHook p g st h =
          ⟨st.time + t, st.withError, st.forceExit, st.invoked ++ [h.name],
           st.log ++ [processingHookLine h.name, successfulLine h.name]⟩ := by
        simp [processHook, raceHook, hbt, Nat.min_eq_left htp, hng, htp, raceUpdate]
      rw [List.foldl_cons, hstep]
      have := ih ⟨st.time + t, st.withError, st.forceExit,
        st.invoked ++ [h.name],
        st.log ++ [processingHookLine h.name, successfulLine h.name]⟩
        (fun h' hm => hall h' (List.mem_cons_of_mem h hm)) (by simpa using by omega)
      refine ⟨this.1, this.2.1, ?_⟩
      rw [this.2.2]
      simp [hsums]; omega

theorem raceHook_global_time {s p g : Nat} {b : HookBehavior}
    (h : (raceHook s p g b).1 = RaceOutcome.globalTimeout) :
    (raceHook s p g b).2 = max s g ∧ g ≤ (raceHook s p g b).2 := by
  cases b <;> simp only [raceHook] at h ⊢ <;> split_ifs at h ⊢ <;>
    simp_all

theorem processHook_global_le (p g : Nat) (st : RunState) (h : Hook)
    (hg : g ≤ st.time) :
    processHook p g st h =
      ⟨st.time, st.withError, true, st.invoked ++ [h.name],
       st.log ++ [processingHookLine h.name]⟩ := by
  have hmax : max st.time g = st.time := Nat.max_eq_left hg
  cases hb : h.behavior with
  | hang =>
      have : g ≤ st.time + p := le_trans hg (Nat.le_add_right _ _)
      simp [processHook, raceHook, hb, this, raceUpdate, hmax]
  | ok t =>
      have : g ≤ st.time + min t p := le_trans hg (Nat.le_add_right _ _)
      simp [processHook, raceHook, hb, this, raceUpdate, hmax]
  | err t e =>
      have : g ≤ st.time + min t p := le_trans hg (Nat.le_add_right _ _)
      simp [processHook, raceHook, hb, this, raceUpdate, hmax]

theorem skip_foldl (p g : Nat) (hooks : List Hook) : ∀ st : RunState,
    g ≤ st.time → st.forceExit = true →
    List.foldl (processHook p g) st hooks =
      ⟨st.time, st.withError, true, st.invoked ++ hooks.map Hook.name,
       st.log ++ hooks.map (fun h => processingHookLine h.name)⟩ := by
  induction hooks with
  | nil => intro st hg hfe; cases st; simp_all
  | cons h hs ih =>
      intro st hg hfe
      rw [List.foldl_cons, processHook_global_le p g st h hg,
        ih ⟨st.time, st.withError, true, st.invoked ++ [h.name],
          st.log ++ [processingHookLine h.name]⟩ hg rfl]
      simp

theorem processHook_of_race_global (p g : Nat) (st : RunState) (h : Hook)
    (hr : (raceHook st.time p g h.behavior).1 = RaceOutcome.globalTimeout) :
    processHook p g st h =
      ⟨max st.time g, st.withError, true, st.invoked ++ [h.name],
       st.log ++ [processingHookLine h.name]⟩ := by
  have ht := (raceHook_global_time hr).1
  simp [processHook, hr, ht, raceUpdate]

/-- C1: for every shutdown run, after the hook loop the coordinator calls
the process-exit primitive with status 1 exactly when `withError` or
`forceExit` is set, and with status 0 otherwise; in particular a run in
which every registered hook settles successfully within the per-hook
timeout and before the global deadline exits with status 0. -/
theorem c1_exit_status (p g : Nat) (sig : String) (hooks : List Hook) :
    ((runShutdown p g sig hooks).2 =
      if (runShutdown p g sig hooks).1.withError ||
         (runShutdown p g sig hooks).1.forceExit then 1 else 0) ∧
    ((∀ h ∈ hooks, ∃ t, h.behavior = HookBehavior.ok t ∧ t ≤ p) →
     sumOkTimes hooks < g →
     (runShutdown p g sig hooks).2 = 0) := by
  constructor
  · simp [runShutdown]
  · intro hall hsum
    have h0 : (initRunState sig).time + sumOkTimes hooks < g := by
      simp [initRunState]; omega
    have := allOk_foldl p g hooks (initRunState sig) hall h0
    simp only [runShutdown]
    rw [this.1, this.2.1]
    simp [initRunState]

theorem c1_exit_status_witness :
    (runShutdown 5000 10000 "SIGINT" [⟨"foo", HookBehavior.ok 10⟩]).2 = 0 :=
  (c1_exit_status 5000 10000 "SIGINT" [⟨"foo", HookBehavior.ok 10⟩]).2
    (by
      intro h hm
      rw [List.mem_singleton] at hm
      subst hm
      exact ⟨10, rfl, by norm_num⟩)
    (by decide)

/-- C3: in every run in which the global timer fires before the current
hook (or an earlier race) settles, `forceExit` is set and every remaining
hook is skipped: its race resolves immediately (at the already-reached
time) to the global-timeout marker, it contributes only its `Processing`
line — no timed-out, successful or unsuccessful report — the run exits
with code 1, and the final log contains the global-timeout warning. -/
theorem c3_global_timeout (p g : Nat) (sig : String) (pre rest : List Hook)
    (h : Hook)
    (hrace : (raceHook (List.foldl (processHook p g) (initRunState sig) pre).time
        p g h.behavior).1 = RaceOutcome.globalTimeout) :
    (runShutdown p g sig (pre ++ h :: rest)).1.forceExit = true ∧
    (runShutdown p g sig (pre ++ h :: rest)).2 = 1 ∧
    globalWarnLine ∈ (runShutdown p g sig (pre ++ h :: rest)).1.log ∧
    (runShutdown p g sig (pre ++ h :: rest)).1.log =
      (List.foldl (processHook p g) (initRunState sig) pre).log
        ++ (h :: rest).map (fun h' => processingHookLine h'.name)
        ++ [completedLine sig]
        ++ (if (List.foldl (processHook p g) (initRunState sig) pre).withError
            then [gracefulWarnLine] else [])
        ++ [globalWarnLine] := by
  have hfold : List.foldl (processHook p g) (initRunState sig) (pre ++ h :: rest)
      = List.foldl (processHook p g)
          (processHook p g (List.foldl (processHook p g) (initRunState sig) pre) h)
          rest := by
    rw [List.foldl_append, List.foldl_cons]
  have hstep := processHook_of_race_global p g
      (List.foldl (processHook p g) (initRunState sig) pre) h hrace
  have hskip := skip_foldl p g rest
      ⟨max (List.foldl (processHook p g) (initRunState sig) pre).time g,
       (List.foldl (processHook p g) (initRunState sig) pre).withError, true,
       (List.foldl (processHook p g) (initRunState sig) pre).invoked ++ [h.name],
       (List.foldl (processHook p g) (initRunState sig) pre).log
         ++ [processingHookLine h.name]⟩
      (Nat.le_max_right _ _) rfl
  rw [hstep, hskip] at hfold
  simp only [runShutdown, hfold]
  by_cases hwe : (List.foldl (processHook p g) (initRunState sig) pre).withError <;>
    simp [hwe, List.append_assoc]

theorem c3_global_timeout_witness :
    (runShutdown 5000 3000 "SIGINT"
      [⟨"foo", HookBehavior.hang⟩, ⟨"bar", HookBehavior.ok 1⟩]).2 = 1 ∧
    globalWarnLine ∈ (runShutdown 5000 3000 "SIGINT"
      [⟨"foo", HookBehavior.hang⟩, ⟨"bar", HookBehavior.ok 1⟩]).1.log :=
  ⟨(c3_global_timeout 5000 3000 "SIGINT" [] [⟨"bar", HookBehavior.ok 1⟩]
      ⟨"foo", HookBehavior.hang⟩ (by decide)).2.1,
   (c3_global_timeout 5000 3000 "SIGINT" [] [⟨"bar", HookBehavior.ok 1⟩]
      ⟨"foo", HookBehavior.hang⟩ (by decide)).2.2.1⟩

/-- C4: for a hook whose handler never settles whose per-hook timer fires
before the global timer, the loop sets `withError`, logs a `Timed out`
line (not an `Unsuccessful` one) and hands the next hook the resulting
state; and a run whose only hook is such a hook exits with code 1, logs
the graceful-handlers warning, and logs no global-timeout warning. -/
theorem c4_perhook_timeout (p g : Nat) (sig : String) (st : RunState)
    (h h1 : Hook)
    (hb : h.behavior = HookBehavior.hang) (ht : st.time + p < g)
    (hb1 : h1.behavior = HookBehavior.hang) (hp : p < g) :
    processHook p g st h =
      ⟨st.time + p, true, st.forceExit, st.invoked ++ [h.name],
       st.log ++ [processingHookLine h.name, timedOutLine h.name]⟩ ∧
    (runShutdown p g sig [h1]).2 = 1 ∧
    (runShutdown p g sig [h1]).1.log =
      [processingSignalLine sig, processingHookLine h1.name,
       timedOutLine h1.name, completedLine sig, gracefulWarnLine] ∧
    globalWarnLine ∉ (runShutdown p g sig [h1]).1.log ∧
    (∀ e, unsuccessfulLine h1.name e ∉ (runShutdown p g sig [h1]).1.log) := by
  have hng : ¬ g ≤ st.time + p := by omega
  have hstep : processHook p g st h =
      ⟨st.time + p, true, st.forceExit, st.invoked ++ [h.name],
       st.log ++ [processingHookLine h.name, timedOutLine h.name]⟩ := by
    simp [processHook, raceHook, hb, hng, raceUpdate]
  have hng1 : ¬ g ≤ p := by omega
  have hrun : runShutdown p g sig [h1] =
      (⟨0 + p, true, false, [h1.name],
        [processingSignalLine sig, processingHookLine h1.name,
         timedOutLine h1.name, completedLine sig, gracefulWarnLine]⟩, 1) := by
    simp [runShutdown, processHook, raceHook, hb1, hng1, raceUpdate, initRunState]
  refine ⟨hstep, by rw [hrun], by rw [hrun], ?_, ?_⟩
  · rw [hrun]
    simp [globalWarnLine, processingSignalLine, processingHookLine,
      timedOutLine, completedLine, gracefulWarnLine]
  · intro e
    rw [hrun]
    simp [unsuccessfulLine, processingSignalLine, processingHookLine,
      timedOutLine, completedLine, gracefulWarnLine]

theorem c4_perhook_timeout_witness :
    (runShutdown 5000 10000 "SIGINT" [⟨"foo", HookBehavior.hang⟩]).2 = 1 ∧
    (runShutdown 5000 10000 "SIGINT" [⟨"foo", HookBehavior.hang⟩]).1.log =
      [processingSignalLine "SIGINT", processingHookLine "foo",
       timedOutLine "foo", completedLine "SIGINT", gracefulWarnLine] :=
  ⟨(c4_perhook_timeout 5000 10000 "SIGINT" (initRunState "SIGINT")
      ⟨"foo", HookBehavior.hang⟩ ⟨"foo", HookBehavior.hang⟩ rfl (by decide)
      rfl (by decide)).2.1,
   (c4_perhook_timeout 5000 10000 "SIGINT" (initRunState "SIGINT")
      ⟨"foo", HookBehavior.hang⟩ ⟨"foo", HookBehavior.hang⟩ rfl (by decide)
      rfl (by decide)).2.2.1⟩

/-- C5: a hook rejection is caught inside the loop: the failure is logged
as an `Unsuccessful` line carrying the (possibly wrapped) error,
`withError` is set, and the resulting state is what the rest of the loop
continues from; moreover in every run each registered hook's handler is
invoked exactly once, in order, and the run always reaches the
process-exit call with a defined status of 0 or 1. -/
theorem c5_hook_failure (p g : Nat) (sig : String) (hooks : List Hook)
    (st : RunState) (h : Hook) (t : Nat) (e : JSValue)
    (hb : h.behavior = HookBehavior.err t e) (htp : t ≤ p)
    (htg : st.time + t < g) :
    processHook p g st h =
      ⟨st.time + t, true, st.forceExit, st.invoked ++ [h.name],
       st.log ++ [processingHookLine h.name, unsuccessfulLine h.name e]⟩ ∧
    (∀ rest, List.foldl (processHook p g) st (h :: rest) =
      List.foldl (processHook p g) (processHook p g st h) rest) ∧
    (runShutdown p g sig hooks).1.invoked = hooks.map Hook.name ∧
    ((runShutdown p g sig hooks).2 = 0 ∨ (runShutdown p g sig hooks).2 = 1) := by
  have hng : ¬ g ≤ st.time + t := by omega
  refine ⟨?_, fun rest => rfl, ?_, ?_⟩
  · simp [processHook, raceHook, hb, Nat.min_eq_left htp, hng, htp, raceUpdate]
  · have := foldl_invoked p g hooks (initRunState sig)
    simp only [runShutdown]
    rw [this]
    simp [initRunState]
  · simp only [runShutdown]
    split <;> simp

theorem c5_hook_failure_witness :
    (runShutdown 5000 10000 "SIGINT"
      [⟨"foo", HookBehavior.err 0 JSValue.vUndefined⟩]).1.invoked = ["foo"] :=
  (c5_hook_failure 5000 10000 "SIGINT"
      [⟨"foo", HookBehavior.err 0 JSValue.vUndefined⟩]
      (initRunState "SIGINT") ⟨"foo", HookBehavior.err 0 JSValue.vUndefined⟩
      0 JSValue.vUndefined rfl (by decide) (by decide)).2.2.1

/-- C6: hooks execute strictly sequentially in registration order: the
loop's log decomposes into one contiguous block per hook, in registration
order, each block headed by that hook's `Processing` line and computed
from the state left by the previous hook's resolved race; the handlers
are invoked exactly in registration order; and `addHook` appends to the
registry, incrementing `hooksSize` by exactly 1 and preserving insertion
order. -/
theorem c6_sequential_order (p g : Nat) (sig : String) (hooks : List Hook)
    (st : RunState) (m : Manager) (hk : Hook) :
    (List.foldl (processHook p g) st hooks).log =
      st.log ++ loopLog p g st hooks ∧
    (List.foldl (processHook p g) st hooks).invoked =
      st.invoked ++ hooks.map Hook.name ∧
    (∀ st' h', hookLogBlock p g st' h' =
      processingHookLine h'.name ::
        (raceUpdate st'.withError st'.forceExit h'.name
          (raceHook st'.time p g h'.behavior).1).2.2) ∧
    (runShutdown p g sig hooks).1.invoked = hooks.map Hook.name ∧
    (handleEvent p g m (.addHookEvent hk)).handlers = m.handlers ++ [hk] ∧
    (handleEvent p g m (.addHookEvent hk)).hooksSize = m.hooksSize + 1 := by
  refine ⟨foldl_log p g hooks st, foldl_invoked p g hooks st,
    fun st' h' => rfl, ?_, by simp [handleEvent], ?_⟩
  · have := foldl_invoked p g hooks (initRunState sig)
    simp only [runShutdown]
    rw [this]
    simp [initRunState]
  · simp [handleEvent, Manager.hooksSize]

/-- Coupling invariant of the coordinator: the `#shuttingDown` latch is up
exactly when a run has been accepted, and `process.exit` has been called
exactly once if the run has finished and never before. -/
def ManagerInv (m : Manager) : Prop :=
  (m.phase ≠ Phase.idle ↔ m.shuttingDown = true) ∧
  (if m.phase = Phase.exited then m.exitCalls.length = 1 else m.exitCalls = [])

theorem enterLoop_inv (sig : String) (idx : Nat) (we fe : Bool) (time : Nat)
    (m : Manager) (hsd : m.shuttingDown = true) (hex : m.exitCalls = []) :
    ManagerInv (enterLoop sig idx we fe time m) := by
  unfold ManagerInv enterLoop finishRun
  cases hh : m.handlers[idx]? <;> simp [hh, hsd, hex]

theorem processSignalStart_inv (sig : String) (m : Manager)
    (hInv : ManagerInv m) : ManagerInv (processSignalStart sig m) := by
  cases hsd : m.shuttingDown with
  | true =>
      have : processSignalStart sig m = { m with log := m.log ++ [ignoringLine sig] } := by
        simp [processSignalStart, hsd]
      rw [this]
      unfold ManagerInv at hInv ⊢
      simpa using hInv
  | false =>
      have hidle : m.phase = Phase.idle := by
        by_contra hne
        have := hInv.1.mp hne
        rw [hsd] at this
        exact Bool.false_ne_true this
      have hex : m.exitCalls = [] := by
        have h2 := hInv.2
        rw [hidle] at h2
        simpa using h2
      have : processSignalStart sig m =
          enterLoop sig 0 false false 0
            { m with log := m.log ++ [processingSignalLine sig]
                     shuttingDown := true
                     aborted := true } := by
        simp [processSignalStart, hsd]
      rw [this]
      exact enterLoop_inv _ _ _ _ _ _ rfl hex

theorem handleEvent_inv (p g : Nat) (m : Manager) (e : Event)
    (hInv : ManagerInv m) : ManagerInv (handleEvent p g m e) := by
  cases e with
  | sigEvent s =>
      simp only [handleEvent]
      split
      · exact processSignalStart_inv s m hInv
      · exact hInv
  | errorEvent e =>
      simp only [handleEvent]
      split
      · apply processSignalStart_inv
        unfold ManagerInv at hInv ⊢
        simpa using hInv
      · exact hInv
  | addHookEvent h =>
      unfold ManagerInv at hInv ⊢
      simpa using hInv
  | disconnectEvent =>
      unfold ManagerInv at hInv ⊢
      simpa using hInv
  | stepEvent =>
      simp only [handleEvent]
      cases hph : m.phase with
      | idle => simpa [hph] using hInv
      | exited => simpa [hph] using hInv
      | running sig idx we fe time =>
          simp only [hph]
          cases hh : m.handlers[idx]? with
          | none => simpa [hh, hph] using hInv
          | some h =>
              simp only [hh]
              apply enterLoop_inv
              · exact hInv.1.mp (by rw [hph]; exact fun hcon => Phase.noConfusion hcon)
              · have h2 := hInv.2
                rw [hph] at h2
                simpa using h2

theorem initManager_inv : ManagerInv initManager := by
  simp [ManagerInv, initManager, mkManager]

theorem runEvents_inv (p g : Nat) (evs : List Event) : ∀ m : Manager,
    ManagerInv m → ManagerInv (runEvents p g m evs) := by
  induction evs with
  | nil => intro m hInv; exact hInv
  | cons e es ih =>
      intro m hInv
      exact ih (handleEvent p g m e) (handleEvent_inv p g m e hInv)

/-- C2: a trigger delivered while the coordinator is already shutting down
logs exactly one warning identifying the signal and has no other effect at
all; consequently, over any sequence of events delivered to a freshly
constructed coordinator, the process-exit primitive is invoked at most
once, and exactly once by the time a run has finished. -/
theorem c2_first_trigger_wins (p g : Nat) (m : Manager) (s : String)
    (evs : List Event)
    (hsd : m.shuttingDown = true) (hc : m.connected = true)
    (hmem : s ∈ m.signals) :
    handleEvent p g m (.sigEvent s) =
      { m with log := m.log ++ [ignoringLine s] } ∧
    (runEvents p g initManager evs).exitCalls.length ≤ 1 ∧
    ((runEvents p g initManager evs).phase = Phase.exited →
      (runEvents p g initManager evs).exitCalls.length = 1) := by
  refine ⟨?_, ?_, ?_⟩
  · simp [handleEvent, hc, hmem, processSignalStart, hsd]
  · have h2 := (runEvents_inv p g evs initManager initManager_inv).2
    by_cases hph : (runEvents p g initManager evs).phase = Phase.exited
    · rw [if_pos hph] at h2
      omega
    · rw [if_neg hph] at h2
      simp [h2]
  · intro hph
    have h2 := (runEvents_inv p g evs initManager initManager_inv).2
    rwa [if_pos hph] at h2

/-- A coordinator that has already accepted a trigger and finished its
run, used as a concrete instance for the re-entrancy guard. -/
def mgrShutEx : Manager :=
  { handlers := []
    signals := defaultSignals
    shuttingDown := true
    aborted := true
    connected := true
    phase := .exited
    log := []
    invoked := ["foo"]
    exitCalls := [0] }

theorem c2_first_trigger_wins_witness :
    handleEvent 5000 10000 mgrShutEx (.sigEvent "SIGINT") =
      { mgrShutEx with log := mgrShutEx.log ++ [ignoringLine "SIGINT"] } ∧
    (runEvents 5000 10000 initManager
      [Event.sigEvent "SIGINT", Event.stepEvent]).exitCalls.length ≤ 1 :=
  ⟨(c2_first_trigger_wins 5000 10000 mgrShutEx "SIGINT"
      [Event.sigEvent "SIGINT", Event.stepEvent] rfl rfl (by decide)).1,
   (c2_first_trigger_wins 5000 10000 mgrShutEx "SIGINT"
      [Event.sigEvent "SIGINT", Event.stepEvent] rfl rfl (by decide)).2.1⟩

theorem exited_absorbs (p g : Nat) (m : Manager) (e : Event)
    (hph : m.phase = Phase.exited) (hsd : m.shuttingDown = true) :
    (handleEvent p g m e).phase = Phase.exited ∧
    (handleEvent p g m e).shuttingDown = true ∧
    (handleEvent p g m e).invoked = m.invoked := by
  cases e with
  | sigEvent s =>
      simp only [handleEvent]
      split
      · simp [processSignalStart, hsd, hph]
      · exact ⟨hph, hsd, rfl⟩
  | errorEvent e =>
      simp only [handleEvent]
      split
      · simp [processSignalStart, hsd, hph]
      · exact ⟨hph, hsd, rfl⟩
  | addHookEvent h => exact ⟨hph, hsd, rfl⟩
  | disconnectEvent => exact ⟨hph, hsd, rfl⟩
  | stepEvent =>
      simp [handleEvent, hph, hsd]

theorem exited_absorbs_events (p g : Nat) (evs : List Event) : ∀ m : Manager,
    m.phase = Phase.exited → m.shuttingDown = true →
    (runEvents p g m evs).phase = Phase.exited ∧
    (runEvents p g m evs).shuttingDown = true ∧
    (runEvents p g m evs).invoked = m.invoked := by
  induction evs with
  | nil => intro m h1 h2; exact ⟨h1, h2, rfl⟩
  | cons e es ih =>
      intro m h1 h2
      have h3 := exited_absorbs p g m e h1 h2
      have h4 := ih (handleEvent p g m e) h3.1 h3.2.1
      exact ⟨h4.1, h4.2.1, h4.2.2.trans h3.2.2⟩

/-- Event trace falsifying C7: one hook `a` is registered, a signal is
accepted, and then — while the run is suspended awaiting hook `a`'s race —
`addHook` appends hook `b`.  The `for … of` loop iterates the live array,
so the run picks `b` up. -/
def c7events : List Event :=
  [.addHookEvent ⟨"a", .ok 0⟩, .sigEvent "SIGINT",
   .addHookEvent ⟨"b", .ok 0⟩, .stepEvent, .stepEvent]

/-- C7 as stated is false on the code: the loop of `#processSignal`
iterates the live `#handlers` array, not a snapshot, so the hook `"b"`
added after shutdown started is invoked, processed and logged by the
in-flight run. -/
theorem c7_counterexample :
    "b" ∈ (runEvents 5 10 initManager c7events).invoked ∧
    processingHookLine "b" ∈ (runEvents 5 10 initManager c7events).log ∧
    successfulLine "b" ∈ (runEvents 5 10 initManager c7events).log := by
  decide

/-- C7 amended: `addHook` after shutdown has started appends the hook to
the registry and logs its `Registered` line, but never itself starts hook
execution; the in-flight run iterates the registry live, so the appended
hook is only guaranteed to go unexecuted when the run has already
finished: from an exited coordinator no further event ever invokes a
handler. -/
theorem c7_addHook_after_shutdown (p g : Nat) (m : Manager) (hk : Hook)
    (evs : List Event)
    (hph : m.phase = Phase.exited) (hsd : m.shuttingDown = true) :
    (handleEvent p g m (.addHookEvent hk) =
      { m with handlers := m.handlers ++ [hk]
               log := m.log ++ [registeredLine hk.name] }) ∧
    (runEvents p g m evs).invoked = m.invoked ∧
    (runEvents p g m evs).phase = Phase.exited := by
  have h := exited_absorbs_events p g evs m hph hsd
  exact ⟨by simp [handleEvent], h.2.2, h.1⟩

theorem c7_addHook_after_shutdown_witness :
    (runEvents 5000 10000 mgrShutEx
      [Event.addHookEvent ⟨"late", HookBehavior.ok 0⟩, Event.stepEvent]).invoked
      = mgrShutEx.invoked :=
  (c7_addHook_after_shutdown 5000 10000 mgrShutEx ⟨"late", HookBehavior.ok 0⟩
    [Event.addHookEvent ⟨"late", HookBehavior.ok 0⟩, Event.stepEvent]
    rfl rfl).2.1

theorem enterLoop_aborted (sig : String) (idx : Nat) (we fe : Bool)
    (time : Nat) (m : Manager) :
    (enterLoop sig idx we fe time m).aborted = m.aborted := by
  cases hh : m.handlers[idx]? <;> simp [enterLoop, hh, finishRun]

theorem processSignalStart_aborted_mono (sig : String) (m : Manager)
    (hab : m.aborted = true) : (processSignalStart sig m).aborted = true := by
  unfold processSignalStart
  split
  · simpa using hab
  · rw [enterLoop_aborted]

theorem handleEvent_aborted_mono (p g : Nat) (m : Manager) (e : Event)
    (hab : m.aborted = true) : (handleEvent p g m e).aborted = true := by
  cases e with
  | sigEvent s =>
      simp only [handleEvent]
      split
      · exact processSignalStart_aborted_mono s m hab
      · exact hab
  | errorEvent e =>
      simp only [handleEvent]
      split
      · exact processSignalStart_aborted_mono _ _ hab
      · exact hab
  | addHookEvent h => exact hab
  | disconnectEvent => exact hab
  | stepEvent =>
      simp only [handleEvent]
      cases hph : m.phase with
      | idle => exact hab
      | exited => exact hab
      | running sig idx we fe time =>
          cases hh : m.handlers[idx]? with
          | none => simp only [hh]; exact hab
          | some h =>
              simp only [hh]
              rw [enterLoop_aborted]
              exact hab

theorem runEvents_aborted_mono (p g : Nat) (evs : List Event) :
    ∀ m : Manager, m.aborted = true → (runEvents p g m evs).aborted = true := by
  induction evs with
  | nil => intro m hab; exact hab
  | cons e es ih =>
      intro m hab
      exact ih (handleEvent p g m e) (handleEvent_aborted_mono p g m e hab)

/-- C8: the cancellation signal makes exactly one transition: it starts
unsignalled, the first accepted trigger signals it (inside
`#processSignal`, before the hook loop is entered), no event of the
coordinator ever resets it, and the `abortSignal` accessor is a pure read
of the one controller's signal. -/
theorem c8_abort_one_transition (p g : Nat) (m m2 : Manager) (e : Event)
    (s : String) (evs : List Event)
    (hab : m.aborted = true)
    (hsd2 : m2.shuttingDown = false) (hc2 : m2.connected = true)
    (hmem2 : s ∈ m2.signals) :
    initManager.aborted = false ∧
    (handleEvent p g m e).aborted = true ∧
    (runEvents p g m evs).aborted = true ∧
    (handleEvent p g m2 (.sigEvent s)).aborted = true ∧
    Manager.abortSignal m = m.aborted := by
  refine ⟨rfl, handleEvent_aborted_mono p g m e hab,
    runEvents_aborted_mono p g evs m hab, ?_, rfl⟩
  simp [handleEvent, hc2, hmem2, processSignalStart, hsd2, enterLoop_aborted]

theorem c8_abort_one_transition_witness :
    (handleEvent 5000 10000 initManager (.sigEvent "SIGINT")).aborted = true :=
  (c8_abort_one_transition 5000 10000 mgrShutEx initManager Event.stepEvent
    "SIGINT" [] rfl rfl rfl (by decide)).2.2.2.1

/-- C9: `disconnect` only flips the `connected` flag — it leaves the hook
registry, the shutdown latch and everything else unchanged — it is
idempotent, and once disconnected neither a configured signal nor an
uncaught-error delivery has any effect at all: no log lines, no shutdown
start, no exit call. -/
theorem c9_disconnect (p g : Nat) (m md : Manager) (s : String) (e : JSValue)
    (hdc : md.connected = false) :
    handleEvent p g m .disconnectEvent = { m with connected := false } ∧
    handleEvent p g (handleEvent p g m .disconnectEvent) .disconnectEvent =
      handleEvent p g m .disconnectEvent ∧
    handleEvent p g md (.sigEvent s) = md ∧
    handleEvent p g md (.errorEvent e) = md := by
  refine ⟨rfl, rfl, ?_, ?_⟩ <;> simp [handleEvent, hdc]

theorem c9_disconnect_witness :
    handleEvent 5000 10000 { initManager with connected := false }
      (.sigEvent "SIGINT") = { initManager with connected := false } :=
  (c9_disconnect 5000 10000 initManager { initManager with connected := false }
    "SIGINT" JSValue.vNull rfl).2.2.1

/-- C10: the two failure-logging paths wrap errors differently:
`#processErrors` logs the raw value whenever `typeof value` is `"object"`
(including `null`) and wraps it as `\x7b error: value \x7d` otherwise,
while the hook `catch` branch logs raw only `Error` instances and wraps
everything else — so a hook rejecting with a plain object or `null` is
wrapped, and a hook rejecting with no reason logs `\x7b error: undefined \x7d`. -/
theorem c10_error_wrapping :
    (∀ e, typeofIsObject e = true → processErrorsCtx e = LogCtx.raw e) ∧
    (∀ e, typeofIsObject e = false → processErrorsCtx e = LogCtx.wrapped e) ∧
    processErrorsCtx JSValue.vNull = LogCtx.raw JSValue.vNull ∧
    (∀ e, isErrorInstance e = true → hookErrCtx e = LogCtx.raw e) ∧
    (∀ e, isErrorInstance e = false → hookErrCtx e = LogCtx.wrapped e) ∧
    (∀ tag, hookErrCtx (JSValue.vPlainObj tag) =
      LogCtx.wrapped (JSValue.vPlainObj tag)) ∧
    hookErrCtx JSValue.vNull = LogCtx.wrapped JSValue.vNull ∧
    (∀ name, unsuccessfulLine name JSValue.vUndefined =
      ⟨LogLevel.error, some (LogCtx.wrapped JSValue.vUndefined),
        s!"Unsuccessful \"{name}\" hook"⟩) ∧
    (∀ e2, uncaughtLine e2 =
      ⟨LogLevel.error, some (processErrorsCtx e2), "Uncaught/Unhandled"⟩) := by
  refine ⟨fun e he => by simp [processErrorsCtx, he],
    fun e he => by simp [processErrorsCtx, he],
    by simp [processErrorsCtx, typeofIsObject],
    fun e he => by simp [hookErrCtx, he],
    fun e he => by simp [hookErrCtx, he],
    fun tag => by simp [hookErrCtx, isErrorInstance],
    by simp [hookErrCtx, isErrorInstance],
    fun name => by simp [unsuccessfulLine, hookErrCtx, isErrorInstance],
    fun e2 => rfl⟩

theorem c10_error_wrapping_witness :
    processErrorsCtx (JSValue.vNum 3) = LogCtx.wrapped (JSValue.vNum 3) ∧
    hookErrCtx (JSValue.vErrorObj "boom") = LogCtx.raw (JSValue.vErrorObj "boom") ∧
    hookErrCtx JSValue.vUndefined = LogCtx.wrapped JSValue.vUndefined :=
  ⟨c10_error_wrapping.2.1 (JSValue.vNum 3) rfl,
   c10_error_wrapping.2.2.2.1 (JSValue.vErrorObj "boom") rfl,
   c10_error_wrapping.2.2.2.2.1 JSValue.vUndefined rfl⟩
